import Mathlib

/-!
Verification development for the MEDICARE medicine-reminder application.

The definitions below are a shallow embedding of the reminder-generation and
adherence-tracking engine found in src/src/utils/db_manager.py (class
DatabaseManager) and of the scheduler hook in src/src/main.py
(MedicineReminderSystem.send_reminder).  The SQLite store is modelled as lists
of rows; SQL text timestamps of the form YYYY-MM-DD HH:MM:SS are modelled as a
Timestamp structure ordered lexicographically, which agrees with the string
ordering the SQL comparisons use.  Autoincrement primary keys are modelled by
explicit next-id counters.
-/

namespace Medicare

/-- Timestamp models a wall-clock instant as stored in the reminders table:
a calendar day (encoded as a day number, so that adding one day adds one) plus
hour, minute and second of day.  Ordering is lexicographic, matching how SQLite
compares the formatted timestamp strings. -/
structure Timestamp where
  day : Nat
  hour : Nat
  minute : Nat
  sec : Nat
deriving DecidableEq, Repr

/-- Strict lexicographic order on timestamps, matching the string comparison
of formatted timestamps used in the SQL queries. -/
def Timestamp.lt (a b : Timestamp) : Prop :=
  a.day < b.day ∨ (a.day = b.day ∧ (a.hour < b.hour ∨ (a.hour = b.hour ∧
    (a.minute < b.minute ∨ (a.minute = b.minute ∧ a.sec < b.sec)))))

/-- Lexicographic less-or-equal on timestamps. -/
def Timestamp.le (a b : Timestamp) : Prop :=
  a.day < b.day ∨ (a.day = b.day ∧ (a.hour < b.hour ∨ (a.hour = b.hour ∧
    (a.minute < b.minute ∨ (a.minute = b.minute ∧ a.sec ≤ b.sec)))))

instance (a b : Timestamp) : Decidable (Timestamp.lt a b) := by
  unfold Timestamp.lt; exact inferInstance

instance (a b : Timestamp) : Decidable (Timestamp.le a b) := by
  unfold Timestamp.le; exact inferInstance

/-- Medicine models one row of the medicines table (columns that the verified
operations read or write). -/
structure Medicine where
  id : Nat
  barcode : String
  name : String
  dosage : String
  expiryDate : String
  reminderFrequency : String
  timesPerDay : Nat
  baseHour : Nat
  baseMinute : Nat
  systemNotify : Bool
  telegramNotify : Bool
  calendarSync : Bool
deriving DecidableEq, Repr

/-- MedicineData models the medicine_data dictionary passed to add_medicine
and update_medicine; reminder_time HH:MM is modelled already split into
baseHour and baseMinute, as map(int, reminder_time.split(':')) produces. -/
structure MedicineData where
  barcode : String
  name : String
  dosage : String
  expiryDate : String
  reminderFrequency : String
  timesPerDay : Nat
  baseHour : Nat
  baseMinute : Nat
  systemNotify : Bool
  telegramNotify : Bool
  calendarSync : Bool
deriving DecidableEq, Repr

/-- Reminder models one row of the reminders table. -/
structure Reminder where
  id : Nat
  medicineId : Nat
  scheduledTime : Timestamp
  taken : Bool
  takenTime : Option Timestamp
deriving DecidableEq, Repr

/-- StreakRec models one row of the streaks table; date is a day number and is
unique across rows in any state the program produces. -/
structure StreakRec where
  id : Nat
  date : Nat
  completed : Bool
  medicinesTotal : Nat
  medicinesTaken : Nat
deriving DecidableEq, Repr

/-- DBState models the SQLite store: the three tables the verified operations
touch, plus the autoincrement counters for reminders and streaks. -/
structure DBState where
  medicines : List Medicine
  reminders : List Reminder
  streaks : List StreakRec
  nextReminderId : Nat
  nextStreakId : Nat
deriving DecidableEq, Repr

/-- civilDay converts a day number (days since 1970-01-01) to its Gregorian
day of month, as Python date.day reads it; standard civil-from-days
arithmetic. -/
def civilDay (z : Nat) : Nat :=
  let z2 := z + 719468
  let doe := z2 % 146097
  let yoe := (doe - doe / 1460 + doe / 36524 - doe / 146096) / 365
  let doy := doe - (365 * yoe + yoe / 4 - yoe / 100)
  let mp := (5 * doy + 2) / 153
  doy - (153 * mp + 2) / 5 + 1

/-- skipOffset models the frequency filter in _generate_reminders: a weekly
medicine only gets reminders on day offsets divisible by 7, a monthly one only
on target dates whose day of month equals the anchor date's; any other
frequency string behaves like daily (no skip). -/
def skipOffset (d : MedicineData) (today o : Nat) : Bool :=
  if d.reminderFrequency = "weekly" then o % 7 != 0
  else if d.reminderFrequency = "monthly" then civilDay (today + o) != civilDay today
  else false

/-- offsets lists the day offsets in the 30-day horizon that survive the
frequency filter of _generate_reminders. -/
def offsets (d : MedicineData) (today : Nat) : List Nat :=
  (List.range 30).filter (fun o => !skipOffset d today o)

/-- slotTime is the scheduled timestamp _generate_reminders builds for slot i
of a day: hour is the base hour plus four hours per slot wrapped modulo 24,
minute is the base minute, seconds are zero. -/
def slotTime (d : MedicineData) (day i : Nat) : Timestamp :=
  { day := day, hour := (d.baseHour + 4 * i) % 24, minute := d.baseMinute, sec := 0 }

/-- slotRems is the batch of reminder rows one non-skipped day contributes:
one untaken row per slot index below times_per_day, with sequentially
assigned ids. -/
def slotRems (mid : Nat) (d : MedicineData) (day nextId : Nat) : List Reminder :=
  (List.range d.timesPerDay).map (fun i =>
    { id := nextId + i, medicineId := mid, scheduledTime := slotTime d day i,
      taken := false, takenTime := none })

/-- genRems inserts the per-day batches for every surviving day offset, in the
order the source's nested loops run, threading the autoincrement counter. -/
def genRems (mid : Nat) (d : MedicineData) (today : Nat) :
    List Nat → Nat → List Reminder
  | [], _ => []
  | o :: os, nextId =>
      slotRems mid d (today + o) nextId ++
        genRems mid d today os (nextId + d.timesPerDay)

/-- generateReminders models DatabaseManager._generate_reminders: it appends a
freshly generated batch of reminder rows for the medicine to the reminders
table, for the 30-day horizon anchored at today, and advances the
autoincrement counter.  It never inspects existing rows. -/
def generateReminders (s : DBState) (mid : Nat) (d : MedicineData) (today : Nat) :
    DBState :=
  let newRems := genRems mid d today (offsets d today) s.nextReminderId
  { s with reminders := s.reminders ++ newRems,
           nextReminderId := s.nextReminderId + newRems.length }

/-- applyData models the UPDATE medicines SET ... statement of
update_medicine: every listed column is overwritten from the data
dictionary. -/
def applyData (m : Medicine) (d : MedicineData) : Medicine :=
  { m with barcode := d.barcode, name := d.name, dosage := d.dosage,
           expiryDate := d.expiryDate, reminderFrequency := d.reminderFrequency,
           timesPerDay := d.timesPerDay, baseHour := d.baseHour,
           baseMinute := d.baseMinute, systemNotify := d.systemNotify,
           telegramNotify := d.telegramNotify, calendarSync := d.calendarSync }

/-- update_medicine models DatabaseManager.update_medicine for a data
dictionary that carries an id: overwrite the medicine row with that id, delete
every reminder row of that medicine whose scheduled time is strictly later
than now (whether taken or not), then regenerate reminders with
_generate_reminders anchored at the current date, and report success. -/
def update_medicine (s : DBState) (mid : Nat) (d : MedicineData) (now : Timestamp) :
    Bool × DBState :=
  let meds := s.medicines.map (fun m => if m.id = mid then applyData m d else m)
  let rems := s.reminders.filter
    (fun r => !(r.medicineId == mid && decide (Timestamp.lt now r.scheduledTime)))
  let s1 : DBState := { s with medicines := meds, reminders := rems }
  (true, generateReminders s1 mid d now.day)

/-- delete_medicine models DatabaseManager.delete_medicine as it actually
executes: only the medicines row is deleted.  The reminders table declares
ON DELETE CASCADE on medicine_id, but the sqlite3 driver leaves foreign-key
enforcement off by default and the program never issues the pragma that would
enable it, so reminder rows of the deleted medicine survive. -/
def delete_medicine (s : DBState) (mid : Nat) : Bool × DBState :=
  (true, { s with medicines := s.medicines.filter (fun m => m.id != mid) })

/-- remindersOnDay lists the reminder rows whose scheduled time falls on the
given calendar day, as the SQL date(scheduled_time) = date(?) filter
selects. -/
def remindersOnDay (rs : List Reminder) (day : Nat) : List Reminder :=
  rs.filter (fun r => r.scheduledTime.day == day)

/-- minByTime returns the reminder with the lexicographically least scheduled
time, keeping the earliest-inserted row on ties, as the source's ORDER BY
scheduled_time LIMIT 1 scan does. -/
def minByTime : List Reminder → Option Reminder
  | [] => none
  | r :: rs =>
      match minByTime rs with
      | none => some r
      | some b => if Timestamp.lt b.scheduledTime r.scheduledTime then some b else some r

/-- earliestUntaken models the first SELECT of mark_medicine_taken: the
earliest untaken reminder row of the medicine, if any. -/
def earliestUntaken (s : DBState) (mid : Nat) : Option Reminder :=
  minByTime (s.reminders.filter (fun r => r.medicineId == mid && !r.taken))

/-- applyMark is the UPDATE that marks the selected reminder row taken with
the current time. -/
def applyMark (s : DBState) (r0 : Reminder) (now : Timestamp) : List Reminder :=
  s.reminders.map (fun r =>
    if r.id = r0.id then { r with taken := true, takenTime := some now } else r)

/-- allTakenCond is the completion test of mark_medicine_taken: the reminders
scheduled on the date are nonempty and their count equals the count of taken
ones among them; the nonemptiness guard mirrors the source comparing an
integer count against a SUM that is NULL over zero rows. -/
def allTakenCond (rems : List Reminder) (today : Nat) : Prop :=
  0 < (remindersOnDay rems today).length ∧
    (remindersOnDay rems today).length =
      ((remindersOnDay rems today).filter (fun r => r.taken)).length

instance (rems : List Reminder) (today : Nat) : Decidable (allTakenCond rems today) := by
  unfold allTakenCond; exact inferInstance

/-- streaksAfterMark is the streak-table update mark_medicine_taken performs
after marking the reminder: when a row for the current date exists its taken
counter is incremented and, when allTakenCond holds over the reminders read
after the reminder update, its completed flag is set; when no row exists a
fresh one is inserted with taken count one, total seeded from the reminders
scheduled on that date, and the completed flag left at its default of false.
Returns the new streaks table and the advanced autoincrement counter. -/
def streaksAfterMark (s : DBState) (rems : List Reminder) (today : Nat) :
    List StreakRec × Nat :=
  match s.streaks.find? (fun t => t.date == today) with
  | some _ =>
    (if allTakenCond rems today then
      (s.streaks.map (fun t =>
        if t.date = today then { t with medicinesTaken := t.medicinesTaken + 1 }
        else t)).map
        (fun t => if t.date = today then { t with completed := true } else t)
    else
      s.streaks.map (fun t =>
        if t.date = today then { t with medicinesTaken := t.medicinesTaken + 1 }
        else t), s.nextStreakId)
  | none =>
    let fresh : StreakRec :=
      { id := s.nextStreakId, date := today, completed := false,
        medicinesTotal := (remindersOnDay rems today).length, medicinesTaken := 1 }
    (s.streaks ++ [fresh], s.nextStreakId + 1)

/-- mark_medicine_taken models DatabaseManager.mark_medicine_taken.  If the
medicine has no untaken reminder the call returns False having written
nothing.  Otherwise the earliest untaken reminder is marked taken with the
current time and the streak row for the current date is updated as
streaksAfterMark describes. -/
def mark_medicine_taken (s : DBState) (mid : Nat) (now : Timestamp) :
    Bool × DBState :=
  match earliestUntaken s mid with
  | none => (false, s)
  | some r0 =>
    let rems := applyMark s r0 now
    let st := streaksAfterMark s rems now.day
    (true, { s with reminders := rems, streaks := st.1, nextStreakId := st.2 })

/-- update_reminder_status models DatabaseManager.update_reminder_status: it
unconditionally sets taken and the taken time on whichever reminders row has
the given primary key and reports True, whether or not such a row exists. -/
def update_reminder_status (s : DBState) (rid : Nat) (now : Timestamp) :
    Bool × DBState :=
  (true, { s with reminders := s.reminders.map (fun r =>
    if r.id = rid then { r with taken := true, takenTime := some now } else r) })

/-- UpcomingRow models one joined row returned by get_upcoming_reminders.
The SELECT aliases the reminder primary key as reminder_id, while the plain
id key of the row dictionary is the medicines id column of the join. -/
structure UpcomingRow where
  reminderId : Nat
  scheduledTime : Timestamp
  id : Nat
  name : String
  dosage : String
  systemNotify : Bool
  telegramNotify : Bool
  calendarSync : Bool
deriving DecidableEq, Repr

/-- mkUpcomingRow builds the joined row from a reminder row and its matching
medicine row. -/
def mkUpcomingRow (r : Reminder) (m : Medicine) : UpcomingRow :=
  { reminderId := r.id, scheduledTime := r.scheduledTime, id := m.id,
    name := m.name, dosage := m.dosage, systemNotify := m.systemNotify,
    telegramNotify := m.telegramNotify, calendarSync := m.calendarSync }

/-- insertByTime inserts a row into a list kept ascending by scheduled
time. -/
def insertByTime (x : UpcomingRow) : List UpcomingRow → List UpcomingRow
  | [] => [x]
  | y :: ys =>
      if Timestamp.le x.scheduledTime y.scheduledTime then x :: y :: ys
      else y :: insertByTime x ys

/-- sortByTime sorts rows ascending by scheduled time, modelling ORDER BY
scheduled_time. -/
def sortByTime : List UpcomingRow → List UpcomingRow
  | [] => []
  | x :: xs => insertByTime x (sortByTime xs)

/-- get_upcoming_reminders models DatabaseManager.get_upcoming_reminders:
untaken reminders with scheduled time between the two bounds inclusive,
joined with their medicine row, ordered by scheduled time. -/
def get_upcoming_reminders (s : DBState) (start stop : Timestamp) :
    List UpcomingRow :=
  sortByTime ((s.reminders.filter (fun r =>
      !r.taken && decide (Timestamp.le start r.scheduledTime) &&
        decide (Timestamp.le r.scheduledTime stop))).filterMap
    (fun r => (s.medicines.find? (fun m => m.id == r.medicineId)).map
      (fun m => mkUpcomingRow r m)))

/-- sendReminderStoreEffect models the record-store effect of
MedicineReminderSystem.send_reminder in src/src/main.py when the call runs to
completion: the notification, chat-bot and calendar sinks touch no store
state, and the one store mutation is the update_reminder_status call made
with the id key of the joined row, which is the medicine id column. -/
def sendReminderStoreEffect (s : DBState) (row : UpcomingRow) (now : Timestamp) :
    Bool × DBState :=
  update_reminder_status s row.id now

/-- takenCountOn models the taken-reminder count query the streak walk issues
for the most recent date. -/
def takenCountOn (s : DBState) (day : Nat) : Nat :=
  ((remindersOnDay s.reminders day).filter (fun r => r.taken)).length

/-- insertDateDesc inserts a (date, completed) pair into a list kept in
descending date order. -/
def insertDateDesc (x : Nat × Bool) : List (Nat × Bool) → List (Nat × Bool)
  | [] => [x]
  | y :: ys => if y.1 ≤ x.1 then x :: y :: ys else y :: insertDateDesc x ys

/-- sortDateDesc sorts (date, completed) pairs by date descending, modelling
ORDER BY date DESC; streak dates are unique so ties do not arise in program
states. -/
def sortDateDesc : List (Nat × Bool) → List (Nat × Bool)
  | [] => []
  | x :: xs => insertDateDesc x (sortDateDesc xs)

/-- streakCont walks the remaining rows of the streak scan: a row extends the
count only when it is completed and its date is exactly one day before the
date accepted immediately before it; any other row stops the walk. -/
def streakCont (prev : Nat) : List (Nat × Bool) → Nat
  | [] => 0
  | (d, c) :: rest =>
      if c then (if prev = d + 1 then 1 + streakCont d rest else 0) else 0

/-- get_current_streak models DatabaseManager.get_current_streak: streak rows
are scanned in descending date order; the most recent row counts when it is
completed, or when it is not completed but its date has at least one taken
reminder (a day in progress); later rows count through streakCont. -/
def get_current_streak (s : DBState) : Nat :=
  match sortDateDesc (s.streaks.map (fun t => (t.date, t.completed))) with
  | [] => 0
  | (d0, c0) :: rest =>
      if c0 then 1 + streakCont d0 rest
      else if 0 < takenCountOn s d0 then 1 + streakCont d0 rest
      else 0

/-- adherenceWindow lists the reminder rows counted by get_adherence_rate:
scheduled no later than now and no earlier than midnight of the date thirty
days before now, which is how the source builds its window bounds. -/
def adherenceWindow (s : DBState) (now : Timestamp) : List Reminder :=
  s.reminders.filter (fun r =>
    decide (Timestamp.le { day := now.day - 30, hour := 0, minute := 0, sec := 0 }
      r.scheduledTime) && decide (Timestamp.le r.scheduledTime now))

/-- get_adherence_rate models DatabaseManager.get_adherence_rate with exact
rational arithmetic in place of Python floats: zero when the window holds no
reminders, otherwise the taken count over the total count times one
hundred. -/
def get_adherence_rate (s : DBState) (now : Timestamp) : ℚ :=
  let window := adherenceWindow s now
  if window.length = 0 then 0
  else ((window.filter (fun r => r.taken)).length : ℚ) / (window.length : ℚ) * 100

/-- get_streak_longest is modelled from the spec: the repository's Flask entry
point (src/main.py) and the GUI call a db_manager.get_streak() that returns a
current and a persisted longest streak, but the DatabaseManager variant
implementing it is absent from the repository snapshot; only its callers
exist.  Following section 4.4 of the spec, the persisted longest streak is
updated on each mark_taken as the maximum of its previous value and the
current streak. -/
def get_streak_longest (longest current : Nat) : Nat :=
  max longest current

/-- markTakenTracked is modelled from the spec (see get_streak_longest): one
mark_taken call together with the longest-streak bookkeeping the missing
get_streak state requires. -/
def markTakenTracked (s : DBState) (longest : Nat) (mid : Nat) (now : Timestamp) :
    Bool × DBState × Nat :=
  let res := mark_medicine_taken s mid now
  (res.1, res.2, get_streak_longest longest (get_current_streak res.2))

/-- runMarkCalls folds a sequence of mark_taken calls over the store and the
persisted longest streak. -/
def runMarkCalls : DBState → Nat → List (Nat × Timestamp) → DBState × Nat
  | s, longest, [] => (s, longest)
  | s, longest, (mid, now) :: rest =>
      let res := markTakenTracked s longest mid now
      runMarkCalls res.2.1 res.2.2 rest

/-- medA is a concrete medicines row used to evaluate the operations on
explicit inputs. -/
def medA : Medicine :=
  { id := 1, barcode := "", name := "Aspirin", dosage := "100mg", expiryDate := "",
    reminderFrequency := "daily", timesPerDay := 1, baseHour := 9, baseMinute := 0,
    systemNotify := true, telegramNotify := false, calendarSync := false }

/-- dataA is the medicine_data dictionary matching medA. -/
def dataA : MedicineData :=
  { barcode := "", name := "Aspirin", dosage := "100mg", expiryDate := "",
    reminderFrequency := "daily", timesPerDay := 1, baseHour := 9, baseMinute := 0,
    systemNotify := true, telegramNotify := false, calendarSync := false }

/-- emptyDB is the freshly initialized store. -/
def emptyDB : DBState :=
  { medicines := [], reminders := [], streaks := [], nextReminderId := 1,
    nextStreakId := 1 }

/-- remB is a concrete untaken reminder row of medicine 1, scheduled on day
100 at 09:00. -/
def remB : Reminder :=
  { id := 5, medicineId := 1, scheduledTime := ⟨100, 9, 0, 0⟩, taken := false,
    takenTime := none }

/-- stateB is a store holding medicine 1 and its single untaken reminder. -/
def stateB : DBState :=
  { medicines := [medA], reminders := [remB], streaks := [], nextReminderId := 6,
    nextStreakId := 1 }

/-- remTakenFuture is a reminder of medicine 1 already marked taken, scheduled
in the future of day 50. -/
def remTakenFuture : Reminder :=
  { id := 1, medicineId := 1, scheduledTime := ⟨100, 9, 0, 0⟩, taken := true,
    takenTime := some ⟨99, 10, 0, 0⟩ }

/-- stateC1 is a store whose only reminder is remTakenFuture. -/
def stateC1 : DBState :=
  { medicines := [medA], reminders := [remTakenFuture], streaks := [],
    nextReminderId := 2, nextStreakId := 1 }

/-- remPast is an untaken reminder of medicine 1 scheduled on day 10, in the
past of day 50. -/
def remPast : Reminder :=
  { id := 1, medicineId := 1, scheduledTime := ⟨10, 9, 0, 0⟩, taken := false,
    takenTime := none }

/-- statePast is a store whose only reminder is remPast. -/
def statePast : DBState :=
  { medicines := [medA], reminders := [remPast], streaks := [],
    nextReminderId := 2, nextStreakId := 1 }

/-- streakChainA is a store with completed streak rows for days d and d plus
one and an in-progress row for day d plus two, whose date has one taken
reminder. -/
def streakChainA (d : Nat) : DBState :=
  { medicines := [],
    reminders := [⟨1, 1, ⟨d + 2, 9, 0, 0⟩, true, some ⟨d + 2, 9, 5, 0⟩⟩],
    streaks := [⟨1, d, true, 1, 1⟩, ⟨2, d + 1, true, 1, 1⟩, ⟨3, d + 2, false, 1, 1⟩],
    nextReminderId := 2, nextStreakId := 4 }

/-- streakGapB is streakChainA with the middle day missing: completed row for
day d, in-progress row for day d plus two. -/
def streakGapB (d : Nat) : DBState :=
  { medicines := [],
    reminders := [⟨1, 1, ⟨d + 2, 9, 0, 0⟩, true, some ⟨d + 2, 9, 5, 0⟩⟩],
    streaks := [⟨1, d, true, 1, 1⟩, ⟨3, d + 2, false, 1, 1⟩],
    nextReminderId := 2, nextStreakId := 4 }

/-- streakZeroC is a store whose only streak row, for day d plus two, is not
completed and whose date has no taken reminder. -/
def streakZeroC (d : Nat) : DBState :=
  { medicines := [], reminders := [],
    streaks := [⟨3, d + 2, false, 0, 0⟩],
    nextReminderId := 1, nextStreakId := 4 }

/-- Strict order implies the reflexive order on timestamps. -/
theorem ts_le_of_lt {a b : Timestamp} (h : Timestamp.lt a b) : Timestamp.le a b := by
  simp only [Timestamp.lt, Timestamp.le] at *; omega

/-- Reflexivity of the timestamp order. -/
theorem ts_le_refl (a : Timestamp) : Timestamp.le a a := by
  simp [Timestamp.le]

/-- Transitivity of the timestamp order. -/
theorem ts_le_trans {a b c : Timestamp} (h1 : Timestamp.le a b)
    (h2 : Timestamp.le b c) : Timestamp.le a c := by
  simp only [Timestamp.le] at *; omega

/-- Totality: a timestamp not strictly above another is at most it. -/
theorem ts_le_of_not_lt {a b : Timestamp} (h : ¬ Timestamp.lt a b) :
    Timestamp.le b a := by
  simp only [Timestamp.lt, Timestamp.le] at *; omega

/-- A scan result of minByTime is an element of the scanned list. -/
theorem minByTime_mem : ∀ {l : List Reminder} {r0 : Reminder},
    minByTime l = some r0 → r0 ∈ l := by
  intro l
  induction l with
  | nil => intro r0 h; simp [minByTime] at h
  | cons r rs ih =>
    intro r0 h
    cases hm : minByTime rs with
    | none =>
      simp only [minByTime, hm] at h
      cases h; exact List.mem_cons_self _ _
    | some b =>
      simp only [minByTime, hm] at h
      by_cases hlt : Timestamp.lt b.scheduledTime r.scheduledTime
      · rw [if_pos hlt] at h; cases h; exact List.mem_cons_of_mem _ (ih hm)
      · rw [if_neg hlt] at h; cases h; exact List.mem_cons_self _ _

/-- minByTime on the empty list only is none. -/
theorem minByTime_eq_none : ∀ {l : List Reminder}, minByTime l = none → l = [] := by
  intro l h
  cases l with
  | nil => rfl
  | cons r rs =>
    cases hm : minByTime rs with
    | none => simp only [minByTime, hm] at h; cases h
    | some b =>
      simp only [minByTime, hm] at h
      by_cases hlt : Timestamp.lt b.scheduledTime r.scheduledTime
      · rw [if_pos hlt] at h; cases h
      · rw [if_neg hlt] at h; cases h

/-- A scan result of minByTime has the least scheduled time in the list. -/
theorem minByTime_le : ∀ {l : List Reminder} {r0 : Reminder},
    minByTime l = some r0 → ∀ r ∈ l, Timestamp.le r0.scheduledTime r.scheduledTime := by
  intro l
  induction l with
  | nil => intro r0 h; simp [minByTime] at h
  | cons r rs ih =>
    intro r0 h x hx
    cases hm : minByTime rs with
    | none =>
      simp only [minByTime, hm] at h
      cases h
      rcases List.mem_cons.mp hx with hx | hx
      · rw [hx]; exact ts_le_refl _
      · rw [minByTime_eq_none hm] at hx; cases hx
    | some b =>
      simp only [minByTime, hm] at h
      by_cases hlt : Timestamp.lt b.scheduledTime r.scheduledTime
      · rw [if_pos hlt] at h; cases h
        rcases List.mem_cons.mp hx with hx | hx
        · rw [hx]; exact ts_le_of_lt hlt
        · exact ih hm x hx
      · rw [if_neg hlt] at h; cases h
        rcases List.mem_cons.mp hx with hx | hx
        · rw [hx]; exact ts_le_refl _
        · exact ts_le_trans (ts_le_of_not_lt hlt) (ih hm x hx)

/-- Membership is preserved by insertByTime. -/
theorem mem_insertByTime {a x : UpcomingRow} :
    ∀ {l : List UpcomingRow}, a ∈ insertByTime x l ↔ a = x ∨ a ∈ l := by
  intro l
  induction l with
  | nil => simp [insertByTime]
  | cons y ys ih =>
    simp only [insertByTime]
    by_cases hc : Timestamp.le x.scheduledTime y.scheduledTime
    · rw [if_pos hc]; simp
    · rw [if_neg hc]
      simp only [List.mem_cons, ih]
      tauto

/-- Membership is preserved by sortByTime. -/
theorem mem_sortByTime {a : UpcomingRow} :
    ∀ {l : List UpcomingRow}, a ∈ sortByTime l ↔ a ∈ l := by
  intro l
  induction l with
  | nil => simp [sortByTime]
  | cons y ys ih =>
    simp only [sortByTime, mem_insertByTime, ih, List.mem_cons]

/-- C3: when a medicine id has no untaken reminder row, including an id with
no reminders at all, mark_medicine_taken returns False and leaves the store
exactly as it was: no reminder, streak or medicine row changes. -/
theorem mark_taken_no_pending_noop (s : DBState) (mid : Nat) (now : Timestamp)
    (h : ∀ r ∈ s.reminders, r.medicineId = mid → r.taken = true) :
    mark_medicine_taken s mid now = (false, s) := by
  have hf : s.reminders.filter (fun r => r.medicineId == mid && !r.taken) = [] := by
    rw [List.filter_eq_nil_iff]
    intro r hr
    by_cases hm : r.medicineId = mid
    · simp [hm, h r hr hm]
    · simp [hm]
  unfold mark_medicine_taken earliestUntaken
  rw [hf]
  rfl

/-- Witness for mark_taken_no_pending_noop: marking medicine 99, which has no
reminder rows in stateB, fails and changes nothing. -/
theorem mark_taken_no_pending_noop_witness :
    mark_medicine_taken stateB 99 ⟨100, 9, 5, 0⟩ = (false, stateB) :=
  mark_taken_no_pending_noop stateB 99 ⟨100, 9, 5, 0⟩ (by decide)

/-- C5: the adherence rate is always between zero and one hundred; it is
exactly zero when no reminder is scheduled inside the trailing window the
source computes (from midnight of the date thirty days before now, up to
now); and with a nonempty window it equals the taken count over the total
count times one hundred. -/
theorem adherence_rate_props (s : DBState) (now : Timestamp) :
    0 ≤ get_adherence_rate s now ∧ get_adherence_rate s now ≤ 100 ∧
    ((adherenceWindow s now).length = 0 → get_adherence_rate s now = 0) ∧
    (0 < (adherenceWindow s now).length →
      get_adherence_rate s now =
        (((adherenceWindow s now).filter (fun r => r.taken)).length : ℚ) /
          ((adherenceWindow s now).length : ℚ) * 100) := by
  unfold get_adherence_rate
  by_cases h0 : (adherenceWindow s now).length = 0
  · simp [h0]
  · have hpos : 0 < (adherenceWindow s now).length := Nat.pos_of_ne_zero h0
    have hposq : (0 : ℚ) < ((adherenceWindow s now).length : ℚ) := by
      exact_mod_cast hpos
    have hle : ((adherenceWindow s now).filter (fun r => r.taken)).length ≤
        (adherenceWindow s now).length := List.length_filter_le _ _
    have hdiv : (((adherenceWindow s now).filter (fun r => r.taken)).length : ℚ) /
        ((adherenceWindow s now).length : ℚ) ≤ 1 := by
      rw [div_le_one hposq]
      exact_mod_cast hle
    refine ⟨?_, ?_, ?_, ?_⟩
    · rw [if_neg h0]; positivity
    · rw [if_neg h0]
      calc (((adherenceWindow s now).filter (fun r => r.taken)).length : ℚ) /
            ((adherenceWindow s now).length : ℚ) * 100
          ≤ 1 * 100 := by
            exact mul_le_mul_of_nonneg_right hdiv (by norm_num)
        _ = 100 := by norm_num
    · intro hc; exact absurd hc h0
    · intro _; rw [if_neg h0]

/-- Witness for adherence_rate_props: the empty store has adherence exactly
zero. -/
theorem adherence_rate_props_witness :
    get_adherence_rate emptyDB ⟨100, 0, 0, 0⟩ = 0 :=
  (adherence_rate_props emptyDB ⟨100, 0, 0, 0⟩).2.2.1 (by rfl)

/-- C9: evaluating the code at the failing input: deleting medicine 1 from a
store where it owns one reminder row removes the medicines row but leaves the
reminder row in place, because foreign-key enforcement is off and the
declared cascade never runs. -/
theorem delete_medicine_leaves_orphan :
    (delete_medicine stateB 1).1 = true ∧
    (delete_medicine stateB 1).2.medicines = [] ∧
    remB ∈ (delete_medicine stateB 1).2.reminders ∧
    remB.medicineId = 1 := by decide

/-- C10: the store effect of a completed send_reminder call is exactly an
update_reminder_status call at the id key of the joined row; that id key is
the medicine id column of the join, not the reminder primary key, which sits
under reminder_id; and update_reminder_status reports True unconditionally
while setting taken and the taken time on whichever reminders row carries
that primary key. -/
theorem send_reminder_marks_by_medicine_id (s : DBState) (a b now : Timestamp)
    (row : UpcomingRow) :
    (row ∈ get_upcoming_reminders s a b →
       ∃ r, r ∈ s.reminders ∧ r.taken = false ∧ row.reminderId = r.id ∧
         row.id = r.medicineId) ∧
    sendReminderStoreEffect s row now = update_reminder_status s row.id now ∧
    (update_reminder_status s row.id now).1 = true ∧
    (∀ r, r ∈ s.reminders → r.id = row.id →
       ({ r with taken := true, takenTime := some now } : Reminder) ∈
         (update_reminder_status s row.id now).2.reminders) ∧
    (∀ r, r ∈ s.reminders → r.id ≠ row.id →
       r ∈ (update_reminder_status s row.id now).2.reminders) := by
  refine ⟨?_, rfl, rfl, ?_, ?_⟩
  · intro hrow
    unfold get_upcoming_reminders at hrow
    rw [mem_sortByTime] at hrow
    rcases List.mem_filterMap.mp hrow with ⟨r, hr, hmk⟩
    rcases Option.map_eq_some'.mp hmk with ⟨m, hfind, hrow_eq⟩
    have hmid : m.id = r.medicineId := by
      have := List.find?_some hfind
      simpa using this
    have hmem := List.mem_filter.mp hr
    refine ⟨r, hmem.1, ?_, ?_, ?_⟩
    · have := hmem.2
      simp only [Bool.and_eq_true, Bool.not_eq_true'] at this
      exact this.1.1
    · rw [← hrow_eq]; rfl
    · rw [← hrow_eq]; simpa [mkUpcomingRow] using hmid
  · intro r hr hid
    have heq : (update_reminder_status s row.id now).2.reminders =
        s.reminders.map (fun r => if r.id = row.id then
          { r with taken := true, takenTime := some now } else r) := rfl
    rw [heq]
    exact List.mem_map.mpr ⟨r, hr, by simp [hid]⟩
  · intro r hr hid
    have heq : (update_reminder_status s row.id now).2.reminders =
        s.reminders.map (fun r => if r.id = row.id then
          { r with taken := true, takenTime := some now } else r) := rfl
    rw [heq]
    exact List.mem_map.mpr ⟨r, hr, by simp [hid]⟩

/-- Witness for send_reminder_marks_by_medicine_id: in stateB the joined row
for reminder 5 of medicine 1 carries id 1 (the medicine) and reminder_id 5,
and the row comes from an untaken reminder of the store. -/
theorem send_reminder_marks_by_medicine_id_witness :
    ∃ r, r ∈ stateB.reminders ∧ r.taken = false ∧
      (mkUpcomingRow remB medA).reminderId = r.id ∧
      (mkUpcomingRow remB medA).id = r.medicineId :=
  (send_reminder_marks_by_medicine_id stateB ⟨100, 0, 0, 0⟩ ⟨100, 23, 59, 59⟩
    ⟨100, 9, 5, 0⟩ (mkUpcomingRow remB medA)).1 (by decide)

/-- Totality in the other direction: below-or-equal excludes strictly
above. -/
theorem ts_not_lt_of_le {a b : Timestamp} (h : Timestamp.le a b) :
    ¬ Timestamp.lt b a := by
  simp only [Timestamp.le, Timestamp.lt] at *; omega

/-- Every generated reminder row belongs to the requested medicine, is
untaken, has an id at least the starting autoincrement value, and is
scheduled at a slot time of one of the surviving day offsets. -/
theorem genRems_mem_elim {mid : Nat} {d : MedicineData} {today : Nat} :
    ∀ {os : List Nat} {n : Nat} {x : Reminder}, x ∈ genRems mid d today os n →
      x.medicineId = mid ∧ x.taken = false ∧ n ≤ x.id ∧
        ∃ o ∈ os, ∃ i, i < d.timesPerDay ∧ x.scheduledTime = slotTime d (today + o) i := by
  intro os
  induction os with
  | nil => intro n x hx; simp [genRems] at hx
  | cons o os ih =>
    intro n x hx
    simp only [genRems, slotRems] at hx
    rcases List.mem_append.mp hx with hx | hx
    · rcases List.mem_map.mp hx with ⟨i, hi, hxe⟩
      rw [← hxe]
      exact ⟨rfl, rfl, Nat.le_add_right _ _,
        o, List.mem_cons_self _ _, i, List.mem_range.mp hi, rfl⟩
    · obtain ⟨h1, h2, h3, o2, ho2, i, hi, hs⟩ := ih hx
      exact ⟨h1, h2, Nat.le_trans (Nat.le_add_right _ _) h3,
        o2, List.mem_cons_of_mem _ ho2, i, hi, hs⟩

/-- For every surviving day offset and every slot index, the generated batch
holds a matching untaken reminder row of the medicine. -/
theorem genRems_mem_intro {mid : Nat} {d : MedicineData} {today : Nat} :
    ∀ {os : List Nat} {n o i : Nat}, o ∈ os → i < d.timesPerDay →
      ∃ r ∈ genRems mid d today os n, r.medicineId = mid ∧ r.taken = false ∧
        r.scheduledTime = slotTime d (today + o) i := by
  intro os
  induction os with
  | nil => intro n o i ho _; cases ho
  | cons o0 os ih =>
    intro n o i ho hi
    rcases List.mem_cons.mp ho with ho | ho
    · subst ho
      refine ⟨⟨n + i, mid, slotTime d (today + o) i, false, none⟩, ?_, rfl, rfl, rfl⟩
      simp only [genRems, slotRems]
      apply List.mem_append_left
      exact List.mem_map.mpr ⟨i, List.mem_range.mpr hi, rfl⟩
    · obtain ⟨r, hr, hprops⟩ := @ih (n + d.timesPerDay) o i ho hi
      refine ⟨r, ?_, hprops⟩
      simp only [genRems]
      exact List.mem_append_right _ hr

/-- Length of a generated batch: one row per surviving offset and slot. -/
theorem genRems_length {mid : Nat} {d : MedicineData} {today : Nat} :
    ∀ (os : List Nat) (n : Nat),
      (genRems mid d today os n).length = os.length * d.timesPerDay := by
  intro os
  induction os with
  | nil => intro n; simp [genRems]
  | cons o os ih =>
    intro n
    simp only [genRems, slotRems, List.length_append, List.length_map,
      List.length_range, List.length_cons, ih]
    ring

/-- With the daily frequency no day offset of the horizon is skipped. -/
theorem offsets_daily {d : MedicineData} {today : Nat}
    (hd : d.reminderFrequency = "daily") : offsets d today = List.range 30 := by
  unfold offsets skipOffset
  simp [hd]

/-- C1 counterexample: stateC1 holds a single already-taken reminder of
medicine 1 scheduled in the future of day 50; editing the medicine at day 50
deletes it, so an already-taken instance does not survive the edit unchanged
as the claim states. -/
theorem update_medicine_deletes_future_taken_cex :
    remTakenFuture.taken = true ∧
    remTakenFuture ∈ stateC1.reminders ∧
    ((update_medicine stateC1 1 dataA ⟨50, 12, 0, 0⟩).2.reminders.all
      (fun r => r.id != remTakenFuture.id)) = true := by decide

/-- C1 as amended: update_medicine leaves every reminder scheduled at or
before now unchanged and in place, whatever its taken state, and leaves every
reminder of other medicines in place; but it deletes every strictly-future
reminder of the edited medicine whether taken or not, and every row of the
result is either an original row or a freshly generated untaken row of the
edited medicine scheduled no earlier than the current day. -/
theorem update_medicine_frame (s : DBState) (mid : Nat) (d : MedicineData)
    (now : Timestamp) (hwf : ∀ r ∈ s.reminders, r.id < s.nextReminderId) :
    (∀ r ∈ s.reminders, Timestamp.le r.scheduledTime now →
        r ∈ (update_medicine s mid d now).2.reminders) ∧
    (∀ r ∈ s.reminders, r.medicineId ≠ mid →
        r ∈ (update_medicine s mid d now).2.reminders) ∧
    (∀ r ∈ s.reminders, r.medicineId = mid → Timestamp.lt now r.scheduledTime →
        r ∉ (update_medicine s mid d now).2.reminders) ∧
    (∀ x ∈ (update_medicine s mid d now).2.reminders,
        x ∈ s.reminders ∨ (x.medicineId = mid ∧ x.taken = false ∧
          now.day ≤ x.scheduledTime.day)) := by
  have hres : (update_medicine s mid d now).2.reminders =
      (s.reminders.filter (fun r =>
        !(r.medicineId == mid && decide (Timestamp.lt now r.scheduledTime)))) ++
        genRems mid d now.day (offsets d now.day) s.nextReminderId := rfl
  refine ⟨?_, ?_, ?_, ?_⟩
  · intro r hr hle
    rw [hres]
    apply List.mem_append_left
    refine List.mem_filter.mpr ⟨hr, ?_⟩
    simp [ts_not_lt_of_le hle]
  · intro r hr hne
    rw [hres]
    apply List.mem_append_left
    refine List.mem_filter.mpr ⟨hr, ?_⟩
    simp [hne]
  · intro r hr hmid hlt hmem
    rw [hres] at hmem
    rcases List.mem_append.mp hmem with hmem | hmem
    · have := (List.mem_filter.mp hmem).2
      simp [hmid, hlt] at this
    · have hid := (genRems_mem_elim hmem).2.2.1
      exact absurd hid (Nat.not_le_of_lt (hwf r hr))
  · intro x hx
    rw [hres] at hx
    rcases List.mem_append.mp hx with hx | hx
    · exact Or.inl (List.mem_filter.mp hx).1
    · obtain ⟨h1, h2, _, o, _, i, _, hs⟩ := genRems_mem_elim hx
      refine Or.inr ⟨h1, h2, ?_⟩
      rw [hs]
      exact Nat.le_add_right _ _

/-- Witness for update_medicine_frame: the past untaken reminder of statePast
survives an edit performed at day 50. -/
theorem update_medicine_frame_witness :
    remPast ∈ (update_medicine statePast 1 dataA ⟨50, 12, 0, 0⟩).2.reminders :=
  (update_medicine_frame statePast 1 dataA ⟨50, 12, 0, 0⟩ (by decide)).1
    remPast (by decide) (by decide)

/-- C6 counterexample: running _generate_reminders twice for the same
medicine, daily schedule and anchor day 100 doubles the reminder count from
30 to 60 and leaves two instances for the same medicine, date and slot
time, so materialization is not idempotent. -/
theorem generate_reminders_duplicates_cex :
    (generateReminders emptyDB 1 dataA 100).reminders.length = 30 ∧
    (generateReminders (generateReminders emptyDB 1 dataA 100) 1 dataA
      100).reminders.length = 60 ∧
    ((generateReminders (generateReminders emptyDB 1 dataA 100) 1 dataA
      100).reminders.filter (fun r => r.medicineId == 1 &&
        r.scheduledTime == ({ day := 100, hour := 9, minute := 0, sec := 0 } :
          Timestamp))).length = 2 := by decide

/-- C6 as amended: materialization is not idempotent; _generate_reminders
inserts unconditionally without inspecting existing rows, so each run for a
daily schedule adds exactly thirty times slots-per-day new instances to
whatever the store already holds, and a second identical run duplicates every
(medicine, date, slot) instance instead of leaving the count stable. -/
theorem generate_reminders_additive (s : DBState) (mid : Nat)
    (d : MedicineData) (today : Nat) (hd : d.reminderFrequency = "daily") :
    (generateReminders s mid d today).reminders.length =
      s.reminders.length + 30 * d.timesPerDay := by
  unfold generateReminders
  simp only [List.length_append, genRems_length, offsets_daily hd,
    List.length_range]

/-- Witness for generate_reminders_additive: one run on the empty store
yields thirty reminders for a one-slot daily schedule. -/
theorem generate_reminders_additive_witness :
    (generateReminders emptyDB 1 dataA 100).reminders.length =
      emptyDB.reminders.length + 30 * dataA.timesPerDay :=
  generate_reminders_additive emptyDB 1 dataA 100 rfl

/-- C7: for a daily schedule with base time h:m and s slots per day, the
generated batch over the thirty-day horizon holds exactly thirty times s
rows; for every day offset below thirty and slot index below s there is an
untaken row of the medicine scheduled on that date at hour (h + 4i) mod 24
and minute m; and conversely every generated row has that shape. -/
theorem daily_generation_complete (mid : Nat) (d : MedicineData)
    (today startId : Nat) (hd : d.reminderFrequency = "daily") :
    (genRems mid d today (offsets d today) startId).length =
      30 * d.timesPerDay ∧
    (∀ o < 30, ∀ i < d.timesPerDay,
      ∃ r ∈ genRems mid d today (offsets d today) startId,
        r.medicineId = mid ∧ r.taken = false ∧
        r.scheduledTime = ⟨today + o, (d.baseHour + 4 * i) % 24, d.baseMinute, 0⟩) ∧
    (∀ r ∈ genRems mid d today (offsets d today) startId,
      ∃ o < 30, ∃ i < d.timesPerDay, r.medicineId = mid ∧ r.taken = false ∧
        r.scheduledTime = ⟨today + o, (d.baseHour + 4 * i) % 24, d.baseMinute, 0⟩) := by
  refine ⟨?_, ?_, ?_⟩
  · rw [genRems_length, offsets_daily hd, List.length_range]
  · intro o ho i hi
    have hmem : o ∈ offsets d today := by
      rw [offsets_daily hd]; exact List.mem_range.mpr ho
    obtain ⟨r, hr, h1, h2, h3⟩ :=
      @genRems_mem_intro mid d today (offsets d today) startId o i hmem hi
    exact ⟨r, hr, h1, h2, h3⟩
  · intro r hr
    obtain ⟨h1, h2, _, o, ho, i, hi, hs⟩ := genRems_mem_elim hr
    rw [offsets_daily hd] at ho
    exact ⟨o, List.mem_range.mp ho, i, hi, h1, h2, hs⟩

/-- Witness for daily_generation_complete: the batch generated for dataA at
day 100 holds an untaken reminder of medicine 1 for offset zero, slot zero,
at 09:00. -/
theorem daily_generation_complete_witness :
    ∃ r ∈ genRems 1 dataA 100 (offsets dataA 100) 1,
      r.medicineId = 1 ∧ r.taken = false ∧
      r.scheduledTime = ⟨100 + 0, (dataA.baseHour + 4 * 0) % 24,
        dataA.baseMinute, 0⟩ :=
  (daily_generation_complete 1 dataA 100 1 rfl).2.1 0 (by omega) 0 (by decide)

/-- A medicine with some untaken reminder row has an earliest untaken one. -/
theorem earliestUntaken_some {s : DBState} {mid : Nat}
    (h : ∃ r ∈ s.reminders, r.medicineId = mid ∧ r.taken = false) :
    ∃ r0, earliestUntaken s mid = some r0 := by
  obtain ⟨r, hr, hm, ht⟩ := h
  cases he : earliestUntaken s mid with
  | some r0 => exact ⟨r0, rfl⟩
  | none =>
    exfalso
    unfold earliestUntaken at he
    have hin : r ∈ s.reminders.filter (fun r => r.medicineId == mid && !r.taken) :=
      List.mem_filter.mpr ⟨hr, by simp [hm, ht]⟩
    rw [minByTime_eq_none he] at hin
    cases hin

/-- The earliest untaken reminder of a medicine is an untaken reminder row of
that medicine with minimal scheduled time among them. -/
theorem earliestUntaken_props {s : DBState} {mid : Nat} {r0 : Reminder}
    (h : earliestUntaken s mid = some r0) :
    r0 ∈ s.reminders ∧ r0.medicineId = mid ∧ r0.taken = false ∧
      ∀ r ∈ s.reminders, r.medicineId = mid → r.taken = false →
        Timestamp.le r0.scheduledTime r.scheduledTime := by
  unfold earliestUntaken at h
  have hmem := minByTime_mem h
  have hf := List.mem_filter.mp hmem
  have hp : r0.medicineId = mid ∧ r0.taken = false := by
    have h2 := hf.2
    simp only [Bool.and_eq_true, beq_iff_eq, Bool.not_eq_true'] at h2
    exact h2
  refine ⟨hf.1, hp.1, hp.2, ?_⟩
  intro r hr hm ht
  exact minByTime_le h r (List.mem_filter.mpr ⟨hr, by simp [hm, ht]⟩)

/-- When no streak row exists for the date, streaksAfterMark appends a fresh
row with taken count one, the seeded total, and completed false. -/
theorem streaksAfterMark_new (s : DBState) (rems : List Reminder) (today : Nat)
    (h : ∀ t ∈ s.streaks, t.date ≠ today) :
    streaksAfterMark s rems today =
      (s.streaks ++ [⟨s.nextStreakId, today, false,
        (remindersOnDay rems today).length, 1⟩], s.nextStreakId + 1) := by
  unfold streaksAfterMark
  have hf : s.streaks.find? (fun t => t.date == today) = none := by
    rw [List.find?_eq_none]
    intro t ht
    simp [h t ht]
  rw [hf]

/-- When a streak row for the date exists, streaksAfterMark keeps the counter
and yields, for each matching row, an updated row with taken count one
higher, total unchanged, and completed exactly when it already was or the
all-taken condition holds. -/
theorem streaksAfterMark_exists (s : DBState) (rems : List Reminder)
    (today : Nat) {t : StreakRec} (ht : t ∈ s.streaks) (hd : t.date = today) :
    (streaksAfterMark s rems today).2 = s.nextStreakId ∧
    ∃ t2 ∈ (streaksAfterMark s rems today).1,
      t2.date = today ∧ t2.medicinesTaken = t.medicinesTaken + 1 ∧
      t2.medicinesTotal = t.medicinesTotal ∧
      (t2.completed = true ↔
        (t.completed = true ∨ allTakenCond rems today)) := by
  have hfind : ∃ u, s.streaks.find? (fun t => t.date == today) = some u := by
    have hs : (s.streaks.find? (fun t => t.date == today)).isSome := by
      rw [List.find?_isSome]
      exact ⟨t, ht, by simp [hd]⟩
    exact Option.isSome_iff_exists.mp hs
  obtain ⟨u, hu⟩ := hfind
  unfold streaksAfterMark
  rw [hu]
  by_cases hcond : allTakenCond rems today
  · rw [if_pos hcond]
    refine ⟨rfl, ?_⟩
    refine ⟨{ t with medicinesTaken := t.medicinesTaken + 1, completed := true },
      ?_, hd, rfl, rfl, by simp [hcond]⟩
    refine List.mem_map.mpr ⟨{ t with medicinesTaken := t.medicinesTaken + 1 }, ?_, ?_⟩
    · exact List.mem_map.mpr ⟨t, ht, by rw [if_pos hd]⟩
    · rw [if_pos hd]
  · rw [if_neg hcond]
    refine ⟨rfl, ?_⟩
    refine ⟨{ t with medicinesTaken := t.medicinesTaken + 1 },
      List.mem_map.mpr ⟨t, ht, by rw [if_pos hd]⟩, hd, rfl, rfl, by simp [hcond]⟩

/-- C2 as amended: when the medicine has an untaken reminder row,
mark_medicine_taken succeeds; the row it updates is an earliest untaken row
of the medicine, and the reminders table becomes exactly that row marked
taken with the current time; the streak row touched is the one for the
current date of the call: if absent it is created with taken count one, the
seeded total, and completed left false even when every reminder of the date
is taken, and if present its taken count is incremented and completed
becomes true exactly when it already was or the date's reminders, reread
after the update, are nonempty and all taken. -/
theorem mark_taken_updates (s : DBState) (mid : Nat) (now : Timestamp)
    (hp : ∃ r ∈ s.reminders, r.medicineId = mid ∧ r.taken = false) :
    (mark_medicine_taken s mid now).1 = true ∧
    ∃ r0, earliestUntaken s mid = some r0 ∧ r0 ∈ s.reminders ∧
      r0.medicineId = mid ∧ r0.taken = false ∧
      (∀ r ∈ s.reminders, r.medicineId = mid → r.taken = false →
        Timestamp.le r0.scheduledTime r.scheduledTime) ∧
      (mark_medicine_taken s mid now).2.reminders = applyMark s r0 now ∧
      ((∀ t ∈ s.streaks, t.date ≠ now.day) →
        ∃ t2 ∈ (mark_medicine_taken s mid now).2.streaks,
          t2.date = now.day ∧ t2.medicinesTaken = 1 ∧ t2.completed = false ∧
          t2.medicinesTotal = (remindersOnDay (applyMark s r0 now) now.day).length) ∧
      (∀ t ∈ s.streaks, t.date = now.day →
        ∃ t2 ∈ (mark_medicine_taken s mid now).2.streaks,
          t2.date = now.day ∧ t2.medicinesTaken = t.medicinesTaken + 1 ∧
          t2.medicinesTotal = t.medicinesTotal ∧
          (t2.completed = true ↔ (t.completed = true ∨
            allTakenCond (applyMark s r0 now) now.day))) := by
  obtain ⟨r0, hu⟩ := earliestUntaken_some hp
  obtain ⟨h1, h2, h3, h4⟩ := earliestUntaken_props hu
  have hm1 : (mark_medicine_taken s mid now).1 = true := by
    unfold mark_medicine_taken; rw [hu]
  have hm2 : (mark_medicine_taken s mid now).2.reminders = applyMark s r0 now := by
    unfold mark_medicine_taken; rw [hu]
  have hm3 : (mark_medicine_taken s mid now).2.streaks =
      (streaksAfterMark s (applyMark s r0 now) now.day).1 := by
    unfold mark_medicine_taken; rw [hu]
  refine ⟨hm1, r0, hu, h1, h2, h3, h4, hm2, ?_, ?_⟩
  · intro hnone
    rw [hm3, streaksAfterMark_new s (applyMark s r0 now) now.day hnone]
    refine ⟨⟨s.nextStreakId, now.day, false,
      (remindersOnDay (applyMark s r0 now) now.day).length, 1⟩, ?_, rfl, rfl, rfl, rfl⟩
    exact List.mem_append_right _ (List.mem_cons_self _ _)
  · intro t ht hd
    rw [hm3]
    exact (streaksAfterMark_exists s (applyMark s r0 now) now.day ht hd).2

/-- Witness for mark_taken_updates: marking medicine 1 in stateB succeeds. -/
theorem mark_taken_updates_witness :
    (mark_medicine_taken stateB 1 ⟨100, 9, 5, 0⟩).1 = true :=
  (mark_taken_updates stateB 1 ⟨100, 9, 5, 0⟩ (by decide)).1

/-- C2 counterexample: in stateB the only reminder is scheduled on day 100
and marking it at day 100 creates the streak row for day 100 with taken
count one equal to the seeded total of one, yet the completed flag of the
created row is false, where the claim requires completed to be true exactly
when taken equals due and due is positive. -/
theorem mark_taken_new_streak_not_completed_cex :
    (mark_medicine_taken stateB 1 ⟨100, 9, 5, 0⟩).1 = true ∧
    (mark_medicine_taken stateB 1 ⟨100, 9, 5, 0⟩).2.streaks =
      [⟨1, 100, false, 1, 1⟩] := by decide

/-- C4: the streak walk scenarios of the claim: with completed rows for days
d and d plus one and an in-progress row (not completed, one taken reminder)
for day d plus two the current streak is three; with the middle day missing
the streak computed from the most recent day alone is one; and with the most
recent row not completed and nothing taken on its date the streak is
zero. -/
theorem current_streak_scenarios (d : Nat) :
    get_current_streak (streakChainA d) = 3 ∧
    get_current_streak (streakGapB d) = 1 ∧
    get_current_streak (streakZeroC d) = 0 := by
  have hc21 : ¬((d + 2 : Nat) ≤ d + 1) := by omega
  have hc20 : ¬((d + 2 : Nat) ≤ d) := by omega
  have hc10 : ¬((d + 1 : Nat) ≤ d) := by omega
  refine ⟨?_, ?_, ?_⟩
  · have hsort : sortDateDesc ((streakChainA d).streaks.map
        (fun t => (t.date, t.completed))) =
        [(d + 2, false), (d + 1, true), (d, true)] := by
      show sortDateDesc [(d, true), (d + 1, true), (d + 2, false)] = _
      simp [sortDateDesc, insertDateDesc, hc21, hc20, hc10]
    have htc : takenCountOn (streakChainA d) (d + 2) = 1 := by
      simp [takenCountOn, remindersOnDay, streakChainA]
    have hs2 : streakCont (d + 1) [(d, true)] = 1 := by
      simp [streakCont]
    have hs1 : streakCont (d + 2) [(d + 1, true), (d, true)] = 2 := by
      have e1 : d + 2 = d + 1 + 1 := by omega
      simp [streakCont, e1, hs2]
    unfold get_current_streak
    rw [hsort]
    simp [htc, hs1]
  · have hsort : sortDateDesc ((streakGapB d).streaks.map
        (fun t => (t.date, t.completed))) = [(d + 2, false), (d, true)] := by
      show sortDateDesc [(d, true), (d + 2, false)] = _
      simp [sortDateDesc, insertDateDesc, hc20]
    have htc : takenCountOn (streakGapB d) (d + 2) = 1 := by
      simp [takenCountOn, remindersOnDay, streakGapB]
    have hs1 : streakCont (d + 2) [(d, true)] = 0 := by
      have e : ¬(d + 2 = d + 1) := by omega
      simp [streakCont, e]
    unfold get_current_streak
    rw [hsort]
    simp [htc, hs1]
  · have hsort : sortDateDesc ((streakZeroC d).streaks.map
        (fun t => (t.date, t.completed))) = [(d + 2, false)] := rfl
    have htc : takenCountOn (streakZeroC d) (d + 2) = 0 := by
      simp [takenCountOn, remindersOnDay, streakZeroC]
    unfold get_current_streak
    rw [hsort]
    simp [htc]

/-- C8: the persisted longest streak, modelled from the spec as updated to
the maximum of its previous value and the current streak on each mark_taken
call, never decreases across any sequence of calls and always dominates the
current streak computed from the resulting store; both are natural
numbers. -/
theorem longest_streak_monotone (calls : List (Nat × Timestamp)) (s : DBState)
    (longest : Nat) (h : get_current_streak s ≤ longest) :
    longest ≤ (runMarkCalls s longest calls).2 ∧
    get_current_streak (runMarkCalls s longest calls).1 ≤
      (runMarkCalls s longest calls).2 := by
  induction calls generalizing s longest with
  | nil => exact ⟨Nat.le_refl _, h⟩
  | cons c rest ih =>
    obtain ⟨mid, now⟩ := c
    simp only [runMarkCalls, markTakenTracked, get_streak_longest]
    have h2 : get_current_streak ((mark_medicine_taken s mid now).2) ≤
        max longest (get_current_streak ((mark_medicine_taken s mid now).2)) :=
      Nat.le_max_right _ _
    have hrec := ih _ _ h2
    exact ⟨Nat.le_trans (Nat.le_max_left _ _) hrec.1, hrec.2⟩

/-- Witness for longest_streak_monotone: one call on the empty store with
persisted longest zero. -/
theorem longest_streak_monotone_witness :
    0 ≤ (runMarkCalls emptyDB 0 [(1, ⟨100, 9, 0, 0⟩)]).2 ∧
    get_current_streak (runMarkCalls emptyDB 0 [(1, ⟨100, 9, 0, 0⟩)]).1 ≤
      (runMarkCalls emptyDB 0 [(1, ⟨100, 9, 0, 0⟩)]).2 :=
  longest_streak_monotone [(1, ⟨100, 9, 0, 0⟩)] emptyDB 0 (by decide)

end Medicare
